import Mathlib

/-!
# CasaCraft room-detection and inpainting pipeline — verification development

Shallow embedding of the room-detection handlers (`api/rooms/detect-2d.js`,
`detect-2d-v2.js`, `detect-2d-v3.js`, `detect-2d-v4.js`, and the bounding-box
handler), the client API layer (`src/api/rooms.ts`, `src/api/openrouter.ts`)
and the app-level inpaint state update (`App.tsx`), together with theorems
about the specified properties.

JavaScript numbers are modelled as exact rationals (`ℚ`): every numeric
operation used by the embedded code (min, max, addition, subtraction on
percentage-space coordinates) is exact in JS for the ranges involved, and
`parseFloat` of a decimal literal is modelled by the exact rational value.
JS `undefined` is modelled by `Option`; JS falsiness of `0`, `""` and
`undefined` is modelled explicitly where the code relies on it (`||`
defaults, truthiness tests).
-/

/-- A point in percentage space, as produced by the handlers. -/
structure Point where
  x : ℚ
  y : ℚ
deriving DecidableEq, Repr

/-- An axis-aligned bounding box `{x, y, width, height}` in percentage space. -/
structure BoundingBox where
  x : ℚ
  y : ℚ
  width : ℚ
  height : ℚ
deriving DecidableEq, Repr

/-- JS `v || d` on a possibly-undefined number: `undefined` and `0` are falsy. -/
def jsOrQ (v : Option ℚ) (d : ℚ) : ℚ :=
  match v with
  | none => d
  | some q => if q = 0 then d else q

/-- JS `v || d` on a possibly-undefined string: `undefined` and `""` are falsy. -/
def jsOrS (v : Option String) (d : String) : String :=
  match v with
  | none => d
  | some s => if s = "" then d else s

/-- JS truthiness of a possibly-undefined string. -/
def strTruthy : Option String → Bool
  | none => false
  | some s => s ≠ ""

/-- The coordinate clamp `Math.max(0, Math.min(100, v))` used by every
polygon-normalizing handler. -/
def clamp01 (v : ℚ) : ℚ := max 0 (min 100 v)

/-- A raw `{x, y}` record from the vision response; either coordinate may be
absent (`undefined`). -/
structure RawPoint where
  x : Option ℚ
  y : Option ℚ
deriving DecidableEq, Repr

/-- The map step `pt => ({x: Math.max(0, Math.min(100, pt.x || 0)), y: ...})` —
per-point normalization shared by all polygon-array branches. -/
def normPoint (p : RawPoint) : Point :=
  ⟨clamp01 (jsOrQ p.x 0), clamp01 (jsOrQ p.y 0)⟩

/-! ## SVG path scanning (`parseSvgPath` in `detect-2d.js`)

The source scans the path string with the JS regex
`/([ML])\s*(-?\d+(?:\.\d+)?)[,\s]+(-?\d+(?:\.\d+)?)/gi`, pushing one clamped
point per match.  For this pattern, greedy matching never needs to backtrack
(a digit run is never shortened profitably, because the character that follows
a shortened run is a digit, which neither `(?:\.\d+)?` nor `[,\s]+` can
consume), so the scanner below uses deterministic maximal munch.  The `g` flag
resumes searching at the end of the previous match; a failed match attempt at
one position moves the start position one character forward. -/

/-- The character class `[ML]` under the `i` flag. -/
def isMLChar (c : Char) : Bool := c = 'M' ∨ c = 'L' ∨ c = 'm' ∨ c = 'l'

/-- JS `\s` (the whitespace forms that occur in model output). -/
def isJsSpace (c : Char) : Bool :=
  c = ' ' ∨ c = '\t' ∨ c = '\n' ∨ c = '\r' ∨ c = '\x0b' ∨ c = '\x0c'

/-- The separator class `[,\s]`. -/
def isSepC (c : Char) : Bool := c = ',' ∨ isJsSpace c

/-- Digit run to a natural number. -/
def digitsToNat (ds : List Char) : Nat :=
  ds.foldl (fun a c => 10 * a + (c.toNat - ('0').toNat)) 0

/-- Match the optional fraction `(?:\.\d+)?`: a `.` followed by at least one
digit.  `none` means the optional group matched empty (no characters
consumed). -/
def parseFrac (cs : List Char) : Option (ℚ × List Char) :=
  match cs with
  | [] => none
  | c :: cs3 =>
    if c = '.' then
      let fs := cs3.takeWhile Char.isDigit
      if fs.isEmpty then none
      else some ((digitsToNat fs : ℚ) / (10 : ℚ) ^ fs.length, cs3.dropWhile Char.isDigit)
    else none

/-- Match `\d+(?:\.\d+)?` at the head of the input. -/
def parseUnsigned (cs1 : List Char) : Option (ℚ × List Char) :=
  let ds := cs1.takeWhile Char.isDigit
  let cs2 := cs1.dropWhile Char.isDigit
  if ds.isEmpty then none
  else
    match parseFrac cs2 with
    | some (fv, rest) => some ((digitsToNat ds : ℚ) + fv, rest)
    | none => some ((digitsToNat ds : ℚ), cs2)

/-- Match `-?\d+(?:\.\d+)?` at the head of the input and return its exact
rational value (`parseFloat` of the matched text) with the remaining input. -/
def parseNum (cs : List Char) : Option (ℚ × List Char) :=
  match cs with
  | [] => parseUnsigned []
  | c :: rest =>
    if c = '-' then (parseUnsigned rest).map (fun vr => (-vr.1, vr.2))
    else parseUnsigned (c :: rest)

/-- Attempt the whole regex pattern at the current position: an `[ML]` letter,
`\s*`, a number, `[,\s]+`, a number.  Returns the two coordinate values and
the input remaining after the match. -/
def matchML (cs : List Char) : Option ((ℚ × ℚ) × List Char) :=
  match cs with
  | [] => none
  | c :: rest =>
    if isMLChar c then
      let rest1 := rest.dropWhile isJsSpace
      match parseNum rest1 with
      | none => none
      | some (x, rest2) =>
        let seps := rest2.takeWhile isSepC
        let rest3 := rest2.dropWhile isSepC
        if seps.isEmpty then none
        else
          match parseNum rest3 with
          | none => none
          | some (y, rest4) => some ((x, y), rest4)
    else none

/-- The `regex.exec` loop: on a match, push the clamped point and resume at
the match end; otherwise advance one character.  `fuel` bounds the recursion;
`fuel = cs.length` always suffices because every step strictly shortens the
input (kept structural so the definition evaluates by `decide`/`rfl`). -/
def scanPathFuel : Nat → List Char → List Point
  | 0, _ => []
  | _ + 1, [] => []
  | fuel + 1, c :: rest =>
    match matchML (c :: rest) with
    | some ((x, y), rest') => ⟨clamp01 x, clamp01 y⟩ :: scanPathFuel fuel rest'
    | none => scanPathFuel fuel rest

/-- The function `parseSvgPath(pathStr)` from `detect-2d.js` (also `part_008`):
`if (!pathStr) return []`, then the regex scan. -/
def parseSvgPath (s : String) : List Point :=
  if s = "" then [] else scanPathFuel s.data.length s.data

/-! ## Bounding box from a polygon

`detect-2d.js` (and v2/v3/v4) fold over the polygon with
`minX = minY = 100, maxX = maxY = 0` and emit
`{x: minX, y: minY, width: maxX - minX, height: maxY - minY}`. -/

/-- The four accumulators of the bbox loop. -/
structure BboxAcc where
  minX : ℚ
  minY : ℚ
  maxX : ℚ
  maxY : ℚ
deriving DecidableEq, Repr

/-- The `for (const pt of polygon)` loop updating the four accumulators. -/
def bboxFold (poly : List Point) : BboxAcc :=
  poly.foldl
    (fun a p => ⟨min a.minX p.x, min a.minY p.y, max a.maxX p.x, max a.maxY p.y⟩)
    ⟨100, 100, 0, 0⟩

/-- The derived bounding box. -/
def computeBbox (poly : List Point) : BoundingBox :=
  let a := bboxFold poly
  ⟨a.minX, a.minY, a.maxX - a.minX, a.maxY - a.minY⟩

/-- JS `String.prototype.trim()`: strip leading and trailing whitespace
(embedded over the character list so it evaluates by reduction). -/
def jsTrim (s : String) : String :=
  ⟨((s.data.dropWhile isJsSpace).reverse.dropWhile isJsSpace).reverse⟩

/-! ## Room records

`RoomRegion` is the record shape every detection handler returns (the
`DetectedRoom` of the client).  `label` and `shape` are `Option` because the
v4 handler copies them through without a default. -/

/-- The normalized room record returned by the detection handlers. -/
structure RoomRegion where
  id : String
  label : Option String
  confidence : ℚ
  shape : Option String
  bbox : BoundingBox
  polygon : List Point
  maskUrl : Option String
  featherPx : ℚ
deriving DecidableEq, Repr

/-- A raw room record as parsed from the v1 vision response: any of the
fields may be absent. -/
structure RawRoom where
  label : Option String
  shapeHint : Option String
  path : Option String
  polygon : Option (List RawPoint)
deriving Repr

/-- v1 (`detect-2d.js`): `if (room.path) polygon = parseSvgPath(room.path);
else if (room.polygon) polygon = (room.polygon || []).map(...); else
polygon = []`. -/
def roomPolygonV1 (r : RawRoom) : List Point :=
  if strTruthy r.path then parseSvgPath (r.path.getD "")
  else
    match r.polygon with
    | some pts => pts.map normPoint
    | none => []

/-- The record built by v1 for a room that passes the `< 3` check. -/
def regionOfV1 (index : Nat) (r : RawRoom) : RoomRegion :=
  { id := "room-" ++ toString index
    label := some (jsOrS r.label ("Room " ++ toString (index + 1)))
    confidence := 9 / 10
    shape := some (jsOrS r.shapeHint "unknown")
    bbox := computeBbox (roomPolygonV1 r)
    polygon := roomPolygonV1 r
    maskUrl := none
    featherPx := 12 }

/-- One step of v1's `roomsData.map((room, index) => ...)`: `null` for a
polygon with fewer than 3 points, the normalized record otherwise. -/
def mkRoom (index : Nat) (r : RawRoom) : Option RoomRegion :=
  if (roomPolygonV1 r).length < 3 then none else some (regionOfV1 index r)

/-- v1's `.map((room, index) => ...).filter(Boolean)`, written with the map
index threaded through the recursion. -/
def processAux (i : Nat) : List RawRoom → List RoomRegion
  | [] => []
  | r :: rest =>
    match mkRoom i r with
    | some region => region :: processAux (i + 1) rest
    | none => processAux (i + 1) rest

/-- The full v1 conversion of the parsed rooms array. -/
def processRooms (l : List RawRoom) : List RoomRegion := processAux 0 l

/-- A raw room record for v2/v3 (polygon array only). -/
structure RawPolyRoom where
  label : Option String
  polygon : Option (List RawPoint)
deriving Repr

/-- The polygon of a v2/v3 record: `(room.polygon || []).map(...)`. -/
def roomPolygonV2 (r : RawPolyRoom) : List Point :=
  (r.polygon.getD []).map normPoint

/-- The record built by v2/v3 for a surviving room (v2 and v3 build the
identical record, v3 merely tags the response with `method`). -/
def regionOfPoly (index : Nat) (r : RawPolyRoom) : RoomRegion :=
  { id := "room-" ++ toString index
    label := some (jsOrS r.label ("Room " ++ toString (index + 1)))
    confidence := 9 / 10
    shape := none
    bbox := computeBbox (roomPolygonV2 r)
    polygon := roomPolygonV2 r
    maskUrl := none
    featherPx := 12 }

/-- One step of the v2/v3 map. -/
def mkRoomPoly (index : Nat) (r : RawPolyRoom) : Option RoomRegion :=
  if (roomPolygonV2 r).length < 3 then none else some (regionOfPoly index r)

/-- v2/v3's `.map(...).filter(Boolean)`. -/
def processPolyAux (i : Nat) : List RawPolyRoom → List RoomRegion
  | [] => []
  | r :: rest =>
    match mkRoomPoly i r with
    | some region => region :: processPolyAux (i + 1) rest
    | none => processPolyAux (i + 1) rest

/-- The full v2/v3 conversion of the parsed rooms array. -/
def processRoomsPoly (l : List RawPolyRoom) : List RoomRegion := processPolyAux 0 l

/-! ### v4 (`detect-2d-v4.js`): identify rooms, then trace each one -/

/-- A room identified by v4's first pass. -/
structure IdentifiedRoom where
  label : Option String
  center : Option RawPoint
  shapeHint : Option String
deriving Repr

/-- The parsed response of one per-room trace call. -/
structure TraceResult where
  polygon : Option (List RawPoint)
deriving Repr

/-- One traced room in v4: a failed trace call is caught and yields `null`;
a trace whose polygon has fewer than 3 points yields `null`; otherwise the
normalized record (with the raw `label`/`shape` copied through). -/
def mkRoomV4 (index : Nat) (room : IdentifiedRoom)
    (outcome : Except String TraceResult) : Option RoomRegion :=
  match outcome with
  | .error _ => none
  | .ok t =>
    let polygon := (t.polygon.getD []).map normPoint
    if polygon.length < 3 then none
    else some
      { id := "room-" ++ toString index
        label := room.label
        confidence := 9 / 10
        shape := room.shapeHint
        bbox := computeBbox polygon
        polygon := polygon
        maskUrl := none
        featherPx := 12 }

/-- The `batch.map(...)` + `batchResults.filter(Boolean)` of one v4 batch,
with the global index `i + batchIndex` threaded through. -/
def batchFilter (trace : Nat → Except String TraceResult) (i : Nat) :
    List IdentifiedRoom → List RoomRegion
  | [] => []
  | r :: rest =>
    match mkRoomV4 i r (trace i) with
    | some region => region :: batchFilter trace (i + 1) rest
    | none => batchFilter trace (i + 1) rest

/-- v4's `for (let i = 0; i < roomsList.length; i += 4)` loop: process a
batch of (at most) 4 rooms, append the surviving records, continue. -/
def processV4Loop (trace : Nat → Except String TraceResult) (i : Nat) :
    List IdentifiedRoom → List RoomRegion
  | [] => []
  | a :: b :: c :: d :: rest =>
    batchFilter trace i [a, b, c, d] ++ processV4Loop trace (i + 4) rest
  | rest => batchFilter trace i rest

/-- The full v4 tracing phase (`trace i` is the outcome of the remote trace
call for room `i`). -/
def processV4 (roomsList : List IdentifiedRoom)
    (trace : Nat → Except String TraceResult) : List RoomRegion :=
  processV4Loop trace 0 roomsList

/-! ### The bounding-box-only handler (`part_009`) -/

/-- A raw `bounds` record. -/
structure RawBounds where
  x : Option ℚ
  y : Option ℚ
  width : Option ℚ
  height : Option ℚ
deriving Repr

/-- A raw room record of the bounding-box handler. -/
structure RawBoundsRoom where
  label : Option String
  bounds : Option RawBounds
deriving Repr

/-- The bounding-box handler's per-room mapping: clamp `x`/`y` into
`[0,100]`, clamp `width`/`height` into the remaining extent but force a
minimum of 1 (`Math.max(1, Math.min(100 - x, bounds.width || 20))`), then
synthesize the 4-point rectangle polygon from the box. -/
def mkBoundsRoom (index : Nat) (r : RawBoundsRoom) : RoomRegion :=
  let b := r.bounds.getD ⟨none, none, none, none⟩
  let x := clamp01 (jsOrQ b.x 0)
  let y := clamp01 (jsOrQ b.y 0)
  let width := max 1 (min (100 - x) (jsOrQ b.width 20))
  let height := max 1 (min (100 - y) (jsOrQ b.height 20))
  { id := "room-" ++ toString index
    label := some (jsOrS r.label ("Room " ++ toString (index + 1)))
    confidence := 9 / 10
    shape := none
    bbox := ⟨x, y, width, height⟩
    polygon := [⟨x, y⟩, ⟨x + width, y⟩, ⟨x + width, y + height⟩, ⟨x, y + height⟩]
    maskUrl := none
    featherPx := 12 }

/-- The bounding-box handler maps every record (it has no `< 3` filter: the
synthesized polygon always has 4 points). -/
def processBoundsAux (i : Nat) : List RawBoundsRoom → List RoomRegion
  | [] => []
  | r :: rest => mkBoundsRoom i r :: processBoundsAux (i + 1) rest

/-! ### Handler endpoints

The stages before the rooms array is available (remote call, choices check,
code-fence stripping, `JSON.parse`, array check) are modelled by a
`VisionOutcome` value describing how far they got; the handler maps it to
the HTTP response. -/

/-- Outcome of the vision call and parsing stages. -/
inductive VisionOutcome (α : Type) where
  | fail (status : Nat) (msg : String)
  | unparseable
  | notArray
  | parsed (val : α)

/-- An HTTP response of a detection endpoint: an error status with a message,
or a 200 with the rooms list. -/
inductive ApiResult where
  | err (status : Nat) (msg : String)
  | ok (rooms : List RoomRegion)

/-- The v1 endpoint after the request guards: remote/parse failures become
error responses, a parsed array is converted and returned with status 200 —
regardless of whether any rooms survived filtering. -/
def detect2dHandler (vo : VisionOutcome (List RawRoom)) : ApiResult :=
  match vo with
  | .fail st m => .err st m
  | .unparseable => .err 500 "Failed to parse room detection response"
  | .notArray => .err 500 "Invalid room detection format"
  | .parsed l => .ok (processRooms l)

/-- The v2/v3 endpoints (same stage structure as v1; v2's bounds pass only
changes the prompt text, not the result shape). -/
def detectPolyHandler (vo : VisionOutcome (List RawPolyRoom)) : ApiResult :=
  match vo with
  | .fail st m => .err st m
  | .unparseable => .err 500 "Failed to parse room detection response"
  | .notArray => .err 500 "Invalid room detection format"
  | .parsed l => .ok (processRoomsPoly l)

/-- The v4 endpoint: a failed/unparseable first pass is a 500; a first pass
that is not a non-empty array is `No rooms identified`; otherwise the traced
rooms are returned with status 200 — even when every trace failed or was
filtered and the list is empty. -/
def detectV4Handler (step1 : VisionOutcome (List IdentifiedRoom))
    (trace : Nat → Except String TraceResult) : ApiResult :=
  match step1 with
  | .fail st m => .err st m
  | .unparseable => .err 500 "Room detection failed"
  | .notArray => .err 500 "No rooms identified"
  | .parsed l =>
    if l.length = 0 then .err 500 "No rooms identified"
    else .ok (processV4 l trace)

/-! ## Client API layer (`src/api/rooms.ts`) -/

/-- The JSON body `inpaintRoom` sends to `/api/rooms/inpaint`.  Building this
request is the network call: `inpaintRoom` fetches unconditionally, with no
validation of `prompt` or `strength`. -/
structure InpaintRequest where
  imageUrl : String
  roomId : String
  bbox : BoundingBox
  maskUrl : Option String
  prompt : String
  strength : ℚ
  seed : Option ℚ
deriving Repr

/-- The function `inpaintRoom(imageUrl, room, prompt, strength, seed)`: the request body
it sends (the function performs no local validation before `fetch`). -/
def inpaintRoom (imageUrl : String) (room : RoomRegion) (prompt : String)
    (strength : ℚ) (seed : Option ℚ) : InpaintRequest :=
  { imageUrl := imageUrl
    roomId := room.id
    bbox := room.bbox
    maskUrl := room.maskUrl
    prompt := prompt
    strength := strength
    seed := seed }

/-- The panel submit `RoomEditPanel.handleSubmit`: forward `(prompt, strength)` to `onInpaint`
iff the trimmed prompt is truthy (non-empty); `strength` is passed through
unexamined. -/
def handleSubmit (prompt : String) (strength : ℚ) : Option (String × ℚ) :=
  if jsTrim prompt = "" then none else some (prompt, strength)

/-- The detection strategies of `src/api/rooms.ts`. -/
inductive DetectionMethod where
  | v1 | v2 | v3 | v4
deriving DecidableEq, Repr

/-- The list `DETECTION_METHODS` (ids only; label/description omitted). -/
def DETECTION_METHODS : List DetectionMethod :=
  [.v1, .v2, .v3, .v4]

/-- The parsed body of a successful detection response. -/
structure RoomDetectionResult where
  rooms : List RoomRegion
  imageWidth : ℚ
  imageHeight : ℚ
  method : Option String
deriving Repr

/-- The function `detectRoomsAllMethods`: every method's `detectRoomsFrom2D` call is tried
under its own `try`/`catch`, and `results.set(id, ...)` stores either the
result or the caught error.  The JS `Map` is modelled by its association
list: each key is set exactly once, so the map's lookup behaviour does not
depend on the completion order of the four promises. -/
def detectRoomsAllMethods
    (outcome : DetectionMethod → Except String RoomDetectionResult) :
    List (DetectionMethod × Except String RoomDetectionResult) :=
  DETECTION_METHODS.map (fun m => (m, outcome m))

/-! ## App-level inpaint state update (`part_001`'s `handleInpaint`) -/

/-- A gallery entry (`GalleryImage` in `part_001`). -/
structure GalleryImage where
  gtype : String
  style : Option String
  data : String
  label : String
deriving DecidableEq, Repr

/-- The inpaint service's parsed success response (only `fullImageUrl` is
consumed by `handleInpaint`). -/
structure InpaintResult where
  cropUrl : Option String
  fullImageUrl : String
  roomId : Option String
deriving Repr

/-- The slice of app state touched by `handleInpaint`. -/
structure AppState where
  galleryImages : List GalleryImage
  currentIndex : Nat
  selectedRoom : Option RoomRegion
  isInpainting : Bool
deriving Repr

/-- The handler `handleInpaint`: if no room is selected or `galleryImages[currentIndex]`
is undefined, return without touching anything.  Otherwise run the inpaint
call; on success replace `newImages[idx]` with `{...old, data:
result.fullImageUrl}` in a single assignment and clear the selection; on a
caught error only alert (the `finally` clears `isInpainting` either way). -/
def handleInpaint (st : AppState) (outcome : Except String InpaintResult) :
    AppState :=
  match st.selectedRoom, st.galleryImages.get? st.currentIndex with
  | some _, some img =>
    match outcome with
    | .ok result =>
      { st with
          galleryImages :=
            st.galleryImages.set st.currentIndex { img with data := result.fullImageUrl }
          selectedRoom := none
          isInpainting := false }
    | .error _ => { st with isInpainting := false }
  | _, _ => st

/-! ## Generation response parsing (`src/api/openrouter.ts`) -/

/-- The `inline_data` field of a Gemini-style content part. -/
structure InlineData where
  mimeType : String
  data : String
deriving DecidableEq, Repr

/-- An `image_url` field: `{url?: ...}`. -/
structure ImageUrlObj where
  url : Option String
deriving DecidableEq, Repr

/-- One element of an array-shaped `message.content` (an object with the
fields the parser looks at, or a bare string). -/
inductive ContentPart where
  | obj (ptype : Option String) (imageUrl : Option ImageUrlObj)
        (text : Option String) (inlineData : Option InlineData)
  | str (s : String)
deriving Repr

/-- The access `part.image_url?.url`. -/
def imagePartUrl (iu : Option ImageUrlObj) : Option String :=
  match iu with
  | none => none
  | some o => o.url

/-- JS truthiness of a possibly-undefined value that is a string when
present. -/
def truthyS : Option String → Bool
  | none => false
  | some s => s ≠ ""

/-- The value `generatedImage` can hold: a string, or (through the
`part.image_url.url || part.image_url` fallback when `url` is falsy) the
`image_url` object itself. -/
inductive JsImageVal where
  | str (s : String)
  | urlObj (o : ImageUrlObj)
deriving DecidableEq, Repr

/-- JS truthiness of `generatedImage` (an object is always truthy). -/
def jsTruthyImg : Option JsImageVal → Bool
  | none => false
  | some (.str s) => s ≠ ""
  | some (.urlObj _) => true

/-- One iteration of the `for (const part of responseContent)` loop,
following the branch order of the source. -/
def stepPart (acc : Option JsImageVal × Option String) (part : ContentPart) :
    Option JsImageVal × Option String :=
  match part with
  | .str s => (acc.1, some (acc.2.getD "" ++ s))
  | .obj ptype iu txt inl =>
    if ptype = some ("image_url") ∧ truthyS (imagePartUrl iu) then
      (some (.str ((imagePartUrl iu).getD "")), acc.2)
    else if ptype = some ("image") ∧ truthyS (imagePartUrl iu) then
      (some (.str ((imagePartUrl iu).getD "")), acc.2)
    else if iu.isSome then
      (some (match iu with
             | some o =>
               match o.url with
               | some u => if u = "" then .urlObj o else .str u
               | none => .urlObj o
             | none => .str ""), acc.2)
    else if ptype = some ("text") then (acc.1, txt)
    else if inl.isSome then
      (some (.str ((inl.map fun d => "data:" ++ d.mimeType ++ ";base64," ++ d.data).getD "")),
       acc.2)
    else acc

/-- The whole array-content loop. -/
def parseArrayContent (parts : List ContentPart) :
    Option JsImageVal × Option String :=
  parts.foldl stepPart (none, none)

/-! String-shaped content is scanned with
`/data:image\/[^;]+;base64,[A-Za-z0-9+/=]+/`.  Like the path regex, this
pattern is matched by deterministic maximal munch (the `[^;]+` run can end
only at the first `;`, and the base64 run is a plain greedy class). -/

/-- The base64 character class `[A-Za-z0-9+/=]`. -/
def isB64C (c : Char) : Bool :=
  ('A' ≤ c ∧ c ≤ 'Z') ∨ ('a' ≤ c ∧ c ≤ 'z') ∨ ('0' ≤ c ∧ c ≤ '9') ∨
    c = '+' ∨ c = '/' ∨ c = '='

/-- Try to match the data-URI pattern at the head of the input; return the
matched characters and the rest. -/
def matchDataUri (cs : List Char) : Option (List Char × List Char) :=
  if cs.take 11 = ("data:image/").data then
    let cs1 := cs.drop 11
    let mime := cs1.takeWhile (fun c => c ≠ ';')
    let cs2 := cs1.dropWhile (fun c => c ≠ ';')
    if mime.isEmpty then none
    else if cs2.take 8 = (";base64,").data then
      let cs3 := cs2.drop 8
      let b64 := cs3.takeWhile isB64C
      let cs4 := cs3.dropWhile isB64C
      if b64.isEmpty then none
      else some (("data:image/").data ++ mime ++ (";base64,").data ++ b64, cs4)
    else none
  else none

/-- Find the leftmost data-URI match: returns the text before the match, the
match and the text after it. -/
def findDataUri : List Char → Option (List Char × List Char × List Char)
  | [] => none
  | c :: rest =>
    match matchDataUri (c :: rest) with
    | some (m, after) => some ([], m, after)
    | none =>
      match findDataUri rest with
      | some (before, m, after) => some (c :: before, m, after)
      | none => none

/-- The `typeof responseContent === 'string'` branch: on a match, the image
is the matched data URI and the description is the content with that first
occurrence removed and trimmed; otherwise the whole content is the
description. -/
def parseStringContent (s : String) : Option JsImageVal × Option String :=
  match findDataUri s.data with
  | some (before, m, after) =>
    (some (.str ⟨m⟩), some (jsTrim ⟨before ++ after⟩))
  | none => (none, some s)

/-- The field `message.content` may be an array, a string, or something else (both
branches skipped). -/
inductive RespContent where
  | parts (l : List ContentPart)
  | str (s : String)
  | nullc
deriving Repr

/-- The fields of `choices[0].message` read by the parser. -/
structure RespMessage where
  content : RespContent
  images : Option (List ContentPart)
  image : Option String
deriving Repr

/-- The `message.images` fallback loop: first entry with
`type === 'image_url'` and a truthy `image_url?.url` wins (`break`). -/
def firstImagesUrl : List ContentPart → Option String
  | [] => none
  | .obj ptype iu _ _ :: rest =>
    if ptype = some ("image_url") ∧ truthyS (imagePartUrl iu) then imagePartUrl iu
    else firstImagesUrl rest
  | .str _ :: rest => firstImagesUrl rest

/-- The full parsing phase of `generateIsometricRender`: content first, then
the `message.images` fallback (only if `generatedImage` is still falsy),
then the message-level `image` fallback. -/
def parseGeneration (m : RespMessage) : Option JsImageVal × Option String :=
  let p0 :=
    match m.content with
    | .parts l => parseArrayContent l
    | .str s => parseStringContent s
    | .nullc => (none, none)
  let img1 :=
    if jsTruthyImg p0.1 then p0.1
    else
      match m.images with
      | some l =>
        match firstImagesUrl l with
        | some u => some (.str u)
        | none => p0.1
      | none => p0.1
  let img2 :=
    if jsTruthyImg img1 then img1
    else
      match m.image with
      | some u => if u = "" then img1 else some (.str u)
      | none => img1
  (img2, p0.2)

/-- What `generateIsometricRender` returns (model name and usage omitted). -/
structure GenerationResult where
  image : Option JsImageVal
  description : Option String
deriving Repr

/-- The generation service response as seen after `fetch`. -/
inductive GenResponse where
  | httpFail (status : Nat) (body : String)
  | ok (choices : List RespMessage)
deriving Repr

/-- The tail of `generateIsometricRender` from the response on: HTTP failure and an
empty `choices` array throw; otherwise the parsed result is returned —
with `image = none` when no payload was recognized, not an error. -/
def generateFromResponse (r : GenResponse) : Except String GenerationResult :=
  match r with
  | .httpFail st body => .error ("API error: " ++ toString st ++ " - " ++ body)
  | .ok [] => .error "No response from AI model"
  | .ok (m :: _) =>
    let p := parseGeneration m
    .ok ⟨p.1, p.2⟩

/-- The App-level generation flow (`App.tsx` `handleGenerate`): a truthy
`result.image` becomes the new render, otherwise
`throw new Error('No image returned from AI')`. -/
def appGenerationOutcome (r : GenResponse) : Except String JsImageVal :=
  match generateFromResponse r with
  | .error e => .error e
  | .ok g =>
    if jsTruthyImg g.image then
      match g.image with
      | some v => .ok v
      | none => .error "No image returned from AI"
    else .error "No image returned from AI"

/-! ## Spec-side definitions (for refinement comparisons)

These restate parts of the specification in its own words; they are compared
with the definitions above, which are translated from the source. -/

/-- The spec's "min of point x's" over a (nonempty) polygon. -/
def specMinX : List Point → ℚ
  | [] => 0
  | p :: ps => ps.foldl (fun m q => min m q.x) p.x

/-- The spec's "min of point y's". -/
def specMinY : List Point → ℚ
  | [] => 0
  | p :: ps => ps.foldl (fun m q => min m q.y) p.y

/-- The spec's "max of point x's". -/
def specMaxX : List Point → ℚ
  | [] => 0
  | p :: ps => ps.foldl (fun m q => max m q.x) p.x

/-- The spec's "max of point y's". -/
def specMaxY : List Point → ℚ
  | [] => 0
  | p :: ps => ps.foldl (fun m q => max m q.y) p.y

/-- Spec-side restatement of the v1 filtering: keep exactly the records
whose normalized polygon has at least 3 points, each converted by the
unconditional record builder at its map index. -/
def specKeptV1 (i : Nat) : List RawRoom → List RoomRegion
  | [] => []
  | r :: rest =>
    if 3 ≤ (roomPolygonV1 r).length then regionOfV1 i r :: specKeptV1 (i + 1) rest
    else specKeptV1 (i + 1) rest

/-- Spec-side restatement of the v2/v3 filtering. -/
def specKeptPoly (i : Nat) : List RawPolyRoom → List RoomRegion
  | [] => []
  | r :: rest =>
    if 3 ≤ (roomPolygonV2 r).length then regionOfPoly i r :: specKeptPoly (i + 1) rest
    else specKeptPoly (i + 1) rest

/-- A point lies in the percentage space `[0,100] × [0,100]`. -/
def InRange (p : Point) : Prop :=
  0 ≤ p.x ∧ p.x ≤ 100 ∧ 0 ≤ p.y ∧ p.y ≤ 100

/-- A fully normalized room record, as the spec's contract describes the
orchestrator output: at least 3 polygon points, all clamped into range, the
bbox derived from the polygon, the fixed feather default and no mask. -/
def Normalized (region : RoomRegion) : Prop :=
  3 ≤ region.polygon.length ∧ (∀ p ∈ region.polygon, InRange p) ∧
    region.bbox = computeBbox region.polygon ∧
    region.featherPx = 12 ∧ region.maskUrl = none

/-- The spec's bounding-box invariant together with in-range polygon
coordinates. -/
def BboxInvariant (region : RoomRegion) : Prop :=
  (∀ p ∈ region.polygon, InRange p) ∧
    0 ≤ region.bbox.x ∧ 0 ≤ region.bbox.y ∧
    region.bbox.x + region.bbox.width ≤ 100 ∧
    region.bbox.y + region.bbox.height ≤ 100

/-! ## Concrete instances used by witnesses and counterexamples -/

/-- A raw v1 record whose polygon has a single point (dropped by
validation). -/
def rawOnePoint : RawRoom :=
  ⟨some ("Closet"), none, none, some [⟨some 5, some 5⟩]⟩

/-- A raw v1 record with a valid triangular polygon. -/
def rawTriangle : RawRoom :=
  ⟨some ("Living Room"), none, none,
   some [⟨some 10, some 10⟩, ⟨some 30, some 10⟩, ⟨some 30, some 30⟩]⟩

/-- A raw v1 record carrying an SVG path. -/
def rawPathRoom : RawRoom :=
  ⟨some ("Hall"), none, some ("M 15,20 L 35,20 L 35,40 L 15,40 Z"), none⟩

/-- The input refuting C7: the first record is dropped, so the only
surviving record keeps the raw map index 1. -/
def c7ex : List RawRoom := [rawOnePoint, rawTriangle]

/-- A bounds-only record at the right/bottom edge: the minimum-size floor of
the bounding-box handler pushes `x + width` (and `y + height`) to 101. -/
def c8bad : RoomRegion :=
  mkBoundsRoom 0 ⟨some ("Closet"), some ⟨some 100, some 100, some 50, some 50⟩⟩

/-- A concrete detected room for the client-side witnesses. -/
def roomEx : RoomRegion :=
  { id := "room-0"
    label := some ("Living Room")
    confidence := 9 / 10
    shape := none
    bbox := ⟨10, 10, 20, 20⟩
    polygon := [⟨10, 10⟩, ⟨30, 10⟩, ⟨30, 30⟩, ⟨10, 30⟩]
    maskUrl := none
    featherPx := 12 }

/-- A gallery entry holding the prior render. -/
def imgEx : GalleryImage := ⟨"render", some ("modern"), "old-image-data", "Modern"⟩

/-- An app state with one gallery entry and a selected room. -/
def stEx : AppState := ⟨[imgEx], 0, some roomEx, false⟩

/-- A generation response whose content is a plain description with no
image payload in any recognized shape. -/
def c4msg : RespMessage :=
  ⟨.str ("Here is a rendering description, sadly with no picture attached."), none, none⟩

/-- A generation response message with null content and no fallbacks. -/
def c4empty : RespMessage := ⟨.nullc, none, none⟩

/-- A well-behaved bounds-only record (away from the right/bottom edge). -/
def c8ok : RawBoundsRoom := ⟨some ("Kitchen"), some ⟨some 10, some 15, some 35, some 40⟩⟩

/-! ## Lemmas: the bbox fold -/

/-- The four-accumulator fold splits into four independent folds. -/
theorem bboxFold_split (poly : List Point) : ∀ acc : BboxAcc,
    poly.foldl
        (fun a p => ⟨min a.minX p.x, min a.minY p.y, max a.maxX p.x, max a.maxY p.y⟩)
        acc =
      ⟨poly.foldl (fun a p => min a p.x) acc.minX,
       poly.foldl (fun a p => min a p.y) acc.minY,
       poly.foldl (fun a p => max a p.x) acc.maxX,
       poly.foldl (fun a p => max a p.y) acc.maxY⟩ := by
  induction poly with
  | nil => intro acc; rfl
  | cons p ps ih => intro acc; simpa using ih ⟨min acc.minX p.x, min acc.minY p.y,
      max acc.maxX p.x, max acc.maxY p.y⟩

theorem foldl_min_le_seed (f : Point → ℚ) (ps : List Point) :
    ∀ a : ℚ, ps.foldl (fun m q => min m (f q)) a ≤ a := by
  induction ps with
  | nil => intro a; exact le_refl a
  | cons p ps ih =>
    intro a
    exact le_trans (ih (min a (f p))) (min_le_left _ _)

theorem foldl_min_nonneg (f : Point → ℚ) (ps : List Point) :
    ∀ a : ℚ, 0 ≤ a → (∀ p ∈ ps, 0 ≤ f p) →
      0 ≤ ps.foldl (fun m q => min m (f q)) a := by
  induction ps with
  | nil => intro a ha _; exact ha
  | cons p ps ih =>
    intro a ha hps
    exact ih _ (le_min ha (hps p (List.mem_cons_self p ps)))
      (fun q hq => hps q (List.mem_cons_of_mem p hq))

theorem foldl_max_seed_le (f : Point → ℚ) (ps : List Point) :
    ∀ a : ℚ, a ≤ ps.foldl (fun m q => max m (f q)) a := by
  induction ps with
  | nil => intro a; exact le_refl a
  | cons p ps ih =>
    intro a
    exact le_trans (le_max_left _ _) (ih (max a (f p)))

theorem foldl_max_le (f : Point → ℚ) (ps : List Point) :
    ∀ a : ℚ, a ≤ 100 → (∀ p ∈ ps, f p ≤ 100) →
      ps.foldl (fun m q => max m (f q)) a ≤ 100 := by
  induction ps with
  | nil => intro a ha _; exact ha
  | cons p ps ih =>
    intro a ha hps
    exact ih _ (max_le ha (hps p (List.mem_cons_self p ps)))
      (fun q hq => hps q (List.mem_cons_of_mem p hq))

/-- For a nonempty polygon with in-range coordinates, the source's seeded
fold computes exactly the spec's min/max extent. -/
theorem computeBbox_eq_extent (poly : List Point) (hne : poly ≠ [])
    (hb : ∀ p ∈ poly, InRange p) :
    computeBbox poly =
      ⟨specMinX poly, specMinY poly,
       specMaxX poly - specMinX poly, specMaxY poly - specMinY poly⟩ := by
  cases poly with
  | nil => exact absurd rfl hne
  | cons p ps =>
    obtain ⟨hx0, hx1, hy0, hy1⟩ := hb p (List.mem_cons_self p ps)
    have e : bboxFold (p :: ps) =
        ⟨ps.foldl (fun m q => min m q.x) p.x,
         ps.foldl (fun m q => min m q.y) p.y,
         ps.foldl (fun m q => max m q.x) p.x,
         ps.foldl (fun m q => max m q.y) p.y⟩ := by
      unfold bboxFold
      rw [List.foldl_cons, bboxFold_split]
      simp [min_eq_right hx1, min_eq_right hy1, max_eq_right hx0, max_eq_right hy0]
    simp [computeBbox, e, specMinX, specMinY, specMaxX, specMaxY]

/-! ## Lemmas: coordinate ranges -/

theorem clamp01_bounds (v : ℚ) : 0 ≤ clamp01 v ∧ clamp01 v ≤ 100 :=
  ⟨le_max_left 0 _, max_le (by norm_num) (min_le_left _ _)⟩

theorem normPoint_inRange (p : RawPoint) : InRange (normPoint p) :=
  ⟨(clamp01_bounds _).1, (clamp01_bounds _).2, (clamp01_bounds _).1, (clamp01_bounds _).2⟩

theorem scanPathFuel_inRange : ∀ (fuel : Nat) (cs : List Char),
    ∀ p ∈ scanPathFuel fuel cs, InRange p := by
  intro fuel
  induction fuel with
  | zero => intro cs p hp; simp [scanPathFuel] at hp
  | succ n ih =>
    intro cs p hp
    cases cs with
    | nil => simp [scanPathFuel] at hp
    | cons c rest =>
      rw [scanPathFuel] at hp
      rcases h : matchML (c :: rest) with _ | ⟨⟨x, y⟩, rest'⟩
      · rw [h] at hp; exact ih rest p hp
      · rw [h] at hp
        rcases List.mem_cons.mp hp with h1 | h2
        · subst h1
          exact ⟨(clamp01_bounds _).1, (clamp01_bounds _).2,
            (clamp01_bounds _).1, (clamp01_bounds _).2⟩
        · exact ih rest' p h2

theorem parseSvgPath_inRange (s : String) : ∀ p ∈ parseSvgPath s, InRange p := by
  intro p hp
  unfold parseSvgPath at hp
  split at hp
  · simp at hp
  · exact scanPathFuel_inRange _ _ p hp

theorem roomPolygonV1_inRange (r : RawRoom) : ∀ p ∈ roomPolygonV1 r, InRange p := by
  intro p hp
  unfold roomPolygonV1 at hp
  split at hp
  · exact parseSvgPath_inRange _ p hp
  · rcases h : r.polygon with _ | pts
    · rw [h] at hp; simp at hp
    · rw [h] at hp
      obtain ⟨q, _, hq⟩ := List.mem_map.mp hp
      exact hq ▸ normPoint_inRange q

theorem roomPolygonV2_inRange (r : RawPolyRoom) : ∀ p ∈ roomPolygonV2 r, InRange p := by
  intro p hp
  obtain ⟨q, _, hq⟩ := List.mem_map.mp hp
  exact hq ▸ normPoint_inRange q

/-! ## Lemmas: normalization of each handler's records -/

theorem mkRoom_normalized {i : Nat} {r : RawRoom} {region : RoomRegion}
    (h : mkRoom i r = some region) : Normalized region := by
  unfold mkRoom at h
  split at h
  · exact absurd h (by simp)
  · next hlen =>
    obtain rfl : regionOfV1 i r = region := Option.some.inj h
    exact ⟨Nat.le_of_not_lt hlen, roomPolygonV1_inRange r, rfl, rfl, rfl⟩

theorem mkRoomPoly_normalized {i : Nat} {r : RawPolyRoom} {region : RoomRegion}
    (h : mkRoomPoly i r = some region) : Normalized region := by
  unfold mkRoomPoly at h
  split at h
  · exact absurd h (by simp)
  · next hlen =>
    obtain rfl : regionOfPoly i r = region := Option.some.inj h
    exact ⟨Nat.le_of_not_lt hlen, roomPolygonV2_inRange r, rfl, rfl, rfl⟩

theorem mkRoomV4_normalized {i : Nat} {r : IdentifiedRoom}
    {o : Except String TraceResult} {region : RoomRegion}
    (h : mkRoomV4 i r o = some region) : Normalized region := by
  unfold mkRoomV4 at h
  rcases o with e | t
  · exact absurd h (by simp)
  · simp only at h
    split at h
    · exact absurd h (by simp)
    · next hlen =>
      obtain rfl := Option.some.inj h
      refine ⟨Nat.le_of_not_lt hlen, ?_, rfl, rfl, rfl⟩
      intro p hp
      obtain ⟨q, _, hq⟩ := List.mem_map.mp hp
      exact hq ▸ normPoint_inRange q

/-! ## Lemmas: membership in the filtered outputs -/

theorem processAux_mem : ∀ (i : Nat) (l : List RawRoom) (region : RoomRegion),
    region ∈ processAux i l →
      ∃ j r', l.get? j = some r' ∧ mkRoom (i + j) r' = some region := by
  intro i l
  induction l generalizing i with
  | nil => intro region h; simp [processAux] at h
  | cons r rest ih =>
    intro region h
    rw [processAux] at h
    rcases hm : mkRoom i r with _ | reg
    · rw [hm] at h
      obtain ⟨j, r', hg, hmk⟩ := ih (i + 1) region h
      exact ⟨j + 1, r', by simpa using hg, by rw [show i + (j + 1) = i + 1 + j by omega]; exact hmk⟩
    · rw [hm] at h
      rcases List.mem_cons.mp h with h1 | h2
      · exact ⟨0, r, rfl, by simpa [h1] using hm⟩
      · obtain ⟨j, r', hg, hmk⟩ := ih (i + 1) region h2
        exact ⟨j + 1, r', by simpa using hg, by rw [show i + (j + 1) = i + 1 + j by omega]; exact hmk⟩

theorem processPolyAux_mem : ∀ (i : Nat) (l : List RawPolyRoom) (region : RoomRegion),
    region ∈ processPolyAux i l →
      ∃ j r', l.get? j = some r' ∧ mkRoomPoly (i + j) r' = some region := by
  intro i l
  induction l generalizing i with
  | nil => intro region h; simp [processPolyAux] at h
  | cons r rest ih =>
    intro region h
    rw [processPolyAux] at h
    rcases hm : mkRoomPoly i r with _ | reg
    · rw [hm] at h
      obtain ⟨j, r', hg, hmk⟩ := ih (i + 1) region h
      exact ⟨j + 1, r', by simpa using hg, by rw [show i + (j + 1) = i + 1 + j by omega]; exact hmk⟩
    · rw [hm] at h
      rcases List.mem_cons.mp h with h1 | h2
      · exact ⟨0, r, rfl, by simpa [h1] using hm⟩
      · obtain ⟨j, r', hg, hmk⟩ := ih (i + 1) region h2
        exact ⟨j + 1, r', by simpa using hg, by rw [show i + (j + 1) = i + 1 + j by omega]; exact hmk⟩

theorem batchFilter_mem (trace : Nat → Except String TraceResult) :
    ∀ (i : Nat) (l : List IdentifiedRoom) (region : RoomRegion),
    region ∈ batchFilter trace i l →
      ∃ j r', l.get? j = some r' ∧ mkRoomV4 (i + j) r' (trace (i + j)) = some region := by
  intro i l
  induction l generalizing i with
  | nil => intro region h; simp [batchFilter] at h
  | cons r rest ih =>
    intro region h
    rw [batchFilter] at h
    rcases hm : mkRoomV4 i r (trace i) with _ | reg
    · rw [hm] at h
      obtain ⟨j, r', hg, hmk⟩ := ih (i + 1) region h
      exact ⟨j + 1, r', by simpa using hg, by rw [show i + (j + 1) = i + 1 + j by omega]; exact hmk⟩
    · rw [hm] at h
      rcases List.mem_cons.mp h with h1 | h2
      · exact ⟨0, r, rfl, by simpa [h1] using hm⟩
      · obtain ⟨j, r', hg, hmk⟩ := ih (i + 1) region h2
        exact ⟨j + 1, r', by simpa using hg, by rw [show i + (j + 1) = i + 1 + j by omega]; exact hmk⟩

theorem batchFilter_append (trace : Nat → Except String TraceResult) :
    ∀ (l₁ l₂ : List IdentifiedRoom) (i : Nat),
      batchFilter trace i (l₁ ++ l₂) =
        batchFilter trace i l₁ ++ batchFilter trace (i + l₁.length) l₂ := by
  intro l₁
  induction l₁ with
  | nil => intro l₂ i; simp [batchFilter]
  | cons r rest ih =>
    intro l₂ i
    rw [List.cons_append, batchFilter, batchFilter]
    rcases mkRoomV4 i r (trace i) with _ | reg <;>
      simp [ih l₂ (i + 1), show i + 1 + rest.length = i + (rest.length + 1) by omega]

/-- The batched v4 loop computes the same list as the unbatched filter:
batching only bounds concurrency, it does not change the output. -/
theorem processV4Loop_eq_batchFilter (trace : Nat → Except String TraceResult) :
    ∀ (l : List IdentifiedRoom) (i : Nat),
      processV4Loop trace i l = batchFilter trace i l
  | [], _ => rfl
  | [a], _ => rfl
  | [a, b], _ => rfl
  | [a, b, c], _ => rfl
  | a :: b :: c :: d :: rest, i => by
    show batchFilter trace i [a, b, c, d] ++ processV4Loop trace (i + 4) rest = _
    rw [processV4Loop_eq_batchFilter trace rest (i + 4),
      show (a :: b :: c :: d :: rest : List IdentifiedRoom) = [a, b, c, d] ++ rest from rfl,
      batchFilter_append]
    rfl

/-! ## Lemmas: the `< 3` filter -/

theorem processAux_eq_specKept : ∀ (i : Nat) (l : List RawRoom),
    processAux i l = specKeptV1 i l := by
  intro i l
  induction l generalizing i with
  | nil => rfl
  | cons r rest ih =>
    rw [processAux, specKeptV1]
    by_cases h : (roomPolygonV1 r).length < 3
    · simp [mkRoom, h, Nat.not_le.mpr h, ih]
    · simp [mkRoom, h, Nat.le_of_not_lt h, ih]

theorem processPolyAux_eq_specKept : ∀ (i : Nat) (l : List RawPolyRoom),
    processPolyAux i l = specKeptPoly i l := by
  intro i l
  induction l generalizing i with
  | nil => rfl
  | cons r rest ih =>
    rw [processPolyAux, specKeptPoly]
    by_cases h : (roomPolygonV2 r).length < 3
    · simp [mkRoomPoly, h, Nat.not_le.mpr h, ih]
    · simp [mkRoomPoly, h, Nat.le_of_not_lt h, ih]

theorem specKeptV1_length : ∀ (i : Nat) (l : List RawRoom),
    (specKeptV1 i l).length =
      l.countP (fun r => decide (3 ≤ (roomPolygonV1 r).length)) := by
  intro i l
  induction l generalizing i with
  | nil => rfl
  | cons r rest ih =>
    rw [specKeptV1, List.countP_cons]
    by_cases h : 3 ≤ (roomPolygonV1 r).length <;> simp [h, ih]

theorem specKeptPoly_length : ∀ (i : Nat) (l : List RawPolyRoom),
    (specKeptPoly i l).length =
      l.countP (fun r => decide (3 ≤ (roomPolygonV2 r).length)) := by
  intro i l
  induction l generalizing i with
  | nil => rfl
  | cons r rest ih =>
    rw [specKeptPoly, List.countP_cons]
    by_cases h : 3 ≤ (roomPolygonV2 r).length <;> simp [h, ih]

/-! ## Lemmas: the SVG scanner and a trailing `Z`

A trailing `Z` cannot begin or extend any regex match: it is not an `[ML]`
letter, not whitespace, not a digit, not `-`, not `.` and not a separator.
The lemmas below push an appended `Z` through each stage of the scanner. -/

theorem takeWhile_append_last {p : Char → Bool} {z : Char} (hz : p z = false) :
    ∀ l : List Char, (l ++ [z]).takeWhile p = l.takeWhile p := by
  intro l
  induction l with
  | nil => simp [List.takeWhile, hz]
  | cons c rest ih =>
    by_cases hc : p c
    · simp [List.takeWhile_cons, hc, ih]
    · simp [List.takeWhile_cons, hc]

theorem dropWhile_append_last {p : Char → Bool} {z : Char} (hz : p z = false) :
    ∀ l : List Char, (l ++ [z]).dropWhile p = l.dropWhile p ++ [z] := by
  intro l
  induction l with
  | nil => simp [List.dropWhile, hz]
  | cons c rest ih =>
    by_cases hc : p c
    · simp [List.dropWhile_cons, hc, ih]
    · simp [List.dropWhile_cons, hc]

theorem parseFrac_append_Z (cs : List Char) :
    parseFrac (cs ++ [('Z')]) =
      (parseFrac cs).map (fun vr => (vr.1, vr.2 ++ [('Z')])) := by
  have hdig : Char.isDigit 'Z' = false := by decide
  rcases cs with _ | ⟨c, cs3⟩
  · simp [parseFrac]
  · rw [List.cons_append, parseFrac, parseFrac]
    by_cases hc : c = '.'
    · simp only [hc, if_true, takeWhile_append_last hdig, dropWhile_append_last hdig]
      by_cases hfs : (cs3.takeWhile Char.isDigit).isEmpty <;> simp [hfs]
    · simp [hc]

theorem parseUnsigned_append_Z (cs1 : List Char) :
    parseUnsigned (cs1 ++ [('Z')]) =
      (parseUnsigned cs1).map (fun vr => (vr.1, vr.2 ++ [('Z')])) := by
  have hdig : Char.isDigit 'Z' = false := by decide
  rw [parseUnsigned, parseUnsigned]
  simp only [takeWhile_append_last hdig, dropWhile_append_last hdig]
  by_cases hds : (cs1.takeWhile Char.isDigit).isEmpty
  · simp [hds]
  · simp only [hds, if_false, parseFrac_append_Z]
    rcases parseFrac (cs1.dropWhile Char.isDigit) with _ | ⟨fv, rest⟩ <;> simp

theorem parseNum_append_Z (cs : List Char) :
    parseNum (cs ++ [('Z')]) =
      (parseNum cs).map (fun vr => (vr.1, vr.2 ++ [('Z')])) := by
  rcases cs with _ | ⟨c, rest⟩
  · simp [parseNum, parseUnsigned]
  · rw [List.cons_append, parseNum, parseNum]
    by_cases hc : c = '-'
    · simp only [hc, if_true, parseUnsigned_append_Z]
      rcases parseUnsigned rest with _ | ⟨v, r⟩ <;> simp
    · simp only [hc, if_false, ← List.cons_append, parseUnsigned_append_Z]

theorem matchML_append_Z (cs : List Char) :
    matchML (cs ++ [('Z')]) =
      (matchML cs).map (fun pr => (pr.1, pr.2 ++ [('Z')])) := by
  have hsp : isJsSpace 'Z' = false := by decide
  have hsep : isSepC 'Z' = false := by decide
  have hmlz : isMLChar 'Z' = false := by decide
  rcases cs with _ | ⟨c, rest⟩
  · simp [matchML, hmlz]
  · rw [List.cons_append, matchML, matchML]
    by_cases hml : isMLChar c
    · simp only [hml, if_true, dropWhile_append_last hsp, parseNum_append_Z]
      rcases parseNum (rest.dropWhile isJsSpace) with _ | ⟨x, rest2⟩
      · rfl
      · simp only [Option.map_some']
        simp only [takeWhile_append_last hsep, dropWhile_append_last hsep]
        by_cases hse : (rest2.takeWhile isSepC).isEmpty
        · simp [hse]
        · simp only [hse, if_false, parseNum_append_Z]
          rcases parseNum (rest2.dropWhile isSepC) with _ | ⟨y, rest4⟩ <;> simp
    · simp [hml]

theorem dropWhile_length_le (p : Char → Bool) :
    ∀ l : List Char, (l.dropWhile p).length ≤ l.length := by
  intro l
  induction l with
  | nil => exact Nat.le_refl 0
  | cons c rest ih =>
    by_cases hc : p c
    · rw [List.dropWhile_cons]
      simp only [hc, if_true]
      exact Nat.le_succ_of_le ih
    · rw [List.dropWhile_cons]
      simp [hc]

theorem parseFrac_length {cs : List Char} {v : ℚ} {r : List Char}
    (h : parseFrac cs = some (v, r)) : r.length ≤ cs.length := by
  rcases cs with _ | ⟨c, cs3⟩
  · simp [parseFrac] at h
  · rw [parseFrac] at h
    by_cases hc : c = '.'
    · simp only [hc, if_true] at h
      by_cases hfs : (cs3.takeWhile Char.isDigit).isEmpty
      · simp [hfs] at h
      · simp only [hfs, if_false] at h
        rw [if_neg Bool.false_ne_true] at h
        simp only [Option.some.injEq, Prod.mk.injEq] at h
        rw [← h.2]
        exact Nat.le_succ_of_le (dropWhile_length_le _ cs3)
    · simp [hc] at h

theorem parseUnsigned_length {cs1 : List Char} {v : ℚ} {r : List Char}
    (h : parseUnsigned cs1 = some (v, r)) : r.length ≤ cs1.length := by
  rw [parseUnsigned] at h
  by_cases hds : (cs1.takeWhile Char.isDigit).isEmpty
  · simp [hds] at h
  · simp only [hds, if_false] at h
    rcases hf : parseFrac (cs1.dropWhile Char.isDigit) with _ | ⟨fv, rest⟩
    · rw [hf] at h
      rw [if_neg Bool.false_ne_true] at h
      simp only [Option.some.injEq, Prod.mk.injEq] at h
      rw [← h.2]
      exact dropWhile_length_le _ cs1
    · rw [hf] at h
      rw [if_neg Bool.false_ne_true] at h
      simp only [Option.some.injEq, Prod.mk.injEq] at h
      rw [← h.2]
      exact le_trans (parseFrac_length hf) (dropWhile_length_le _ cs1)

theorem parseNum_length {cs : List Char} {v : ℚ} {r : List Char}
    (h : parseNum cs = some (v, r)) : r.length ≤ cs.length := by
  rcases cs with _ | ⟨c, rest⟩
  · simp [parseNum, parseUnsigned] at h
  · rw [parseNum] at h
    by_cases hc : c = '-'
    · simp only [hc, if_true] at h
      rcases hu : parseUnsigned rest with _ | ⟨v', r'⟩
      · rw [hu] at h; simp at h
      · rw [hu] at h
        simp only [Option.map_some', Option.some.injEq, Prod.mk.injEq] at h
        rw [← h.2]
        exact Nat.le_succ_of_le (parseUnsigned_length hu)
    · simp only [hc, if_false] at h
      exact parseUnsigned_length h

theorem matchML_length {cs : List Char} {pr : ℚ × ℚ} {rest' : List Char}
    (h : matchML cs = some (pr, rest')) : rest'.length < cs.length := by
  rcases cs with _ | ⟨c, rest⟩
  · simp [matchML] at h
  · rw [matchML] at h
    by_cases hml : isMLChar c
    · simp only [hml, if_true] at h
      rcases h1 : parseNum (rest.dropWhile isJsSpace) with _ | ⟨x, rest2⟩
      · rw [h1] at h; simp at h
      · rw [h1] at h
        by_cases hse : (rest2.takeWhile isSepC).isEmpty
        · simp [hse] at h
        · simp only [hse, if_false] at h
          rcases h2 : parseNum (rest2.dropWhile isSepC) with _ | ⟨y, rest4⟩
          · rw [h2] at h; simp at h
          · rw [h2] at h
            rw [if_neg Bool.false_ne_true] at h
            simp only [Option.some.injEq, Prod.mk.injEq] at h
            have e4 : rest4.length ≤ rest.length :=
              le_trans (parseNum_length h2)
                (le_trans (dropWhile_length_le _ rest2)
                  (le_trans (parseNum_length h1) (dropWhile_length_le _ rest)))
            rw [← h.2]
            exact Nat.lt_succ_of_le e4
    · simp [hml] at h

/-- The scan result does not depend on the fuel, as long as the fuel covers
the input length. -/
theorem scanPathFuel_congr : ∀ (f1 f2 : Nat) (cs : List Char),
    cs.length ≤ f1 → cs.length ≤ f2 → scanPathFuel f1 cs = scanPathFuel f2 cs := by
  intro f1
  induction f1 with
  | zero =>
    intro f2 cs h1 _
    rw [List.length_eq_zero.mp (Nat.le_zero.mp h1)]
    cases f2 <;> rfl
  | succ f ih =>
    intro f2 cs h1 h2
    rcases cs with _ | ⟨c, rest⟩
    · cases f2 <;> rfl
    · rcases f2 with _ | g
      · exact absurd h2 (by simp)
      · rw [scanPathFuel, scanPathFuel]
        rcases hm : matchML (c :: rest) with _ | ⟨⟨x, y⟩, rest'⟩
        · exact ih g rest (Nat.le_of_succ_le_succ h1) (Nat.le_of_succ_le_succ h2)
        · have hl := matchML_length hm
          dsimp only
          rw [ih g rest' (by simp at hl h1 ⊢; omega) (by simp at hl h2 ⊢; omega)]

/-- Appending `Z` to the scanned text never changes the emitted points. -/
theorem scanPathFuel_append_Z : ∀ (fuel : Nat) (cs : List Char),
    cs.length + 1 ≤ fuel →
      scanPathFuel fuel (cs ++ [('Z')]) = scanPathFuel fuel cs := by
  intro fuel
  induction fuel with
  | zero => intro cs h; omega
  | succ f ih =>
    intro cs h
    rcases cs with _ | ⟨c, rest⟩
    · cases f <;> rfl
    · rw [List.cons_append, scanPathFuel, scanPathFuel, ← List.cons_append,
        matchML_append_Z]
      rcases hm : matchML (c :: rest) with _ | ⟨⟨x, y⟩, rest'⟩
      · simp only [Option.map_none']
        exact ih rest (by simp at h ⊢; omega)
      · simp only [Option.map_some']
        have hl := matchML_length hm
        rw [ih rest' (by simp at hl h ⊢; omega)]

/-- A trailing `Z` (the SVG close-path command) adds no point. -/
theorem parseSvgPath_append_Z (s : String) :
    parseSvgPath (s ++ ("Z")) = parseSvgPath s := by
  by_cases hs : s = ""
  · subst hs
    rfl
  · have hdata : (s ++ ("Z")).data = s.data ++ [('Z')] := by
      simp [String.data_append]
    have hne : s ++ ("Z") ≠ "" := by
      intro hcontr
      have := congrArg String.data hcontr
      rw [hdata] at this
      simp at this
    rw [parseSvgPath, parseSvgPath]
    simp only [hs, hne, if_false, hdata]
    rw [List.length_append]
    have h1 : s.data.length + 1 ≤ s.data.length + [('Z')].length := by simp
    rw [scanPathFuel_append_Z (s.data.length + [('Z')].length) s.data (by simp),
      scanPathFuel_congr (s.data.length + [('Z')].length) s.data.length s.data
        (by simp) (le_refl _)]

/-! ## Helper lemmas for the claim theorems -/

theorem mkRoom_id {i : Nat} {r : RawRoom} {region : RoomRegion}
    (h : mkRoom i r = some region) : region.id = "room-" ++ toString i := by
  unfold mkRoom at h
  split at h
  · exact absurd h (by simp)
  · obtain rfl := Option.some.inj h
    rfl

theorem mkRoomV4_id {i : Nat} {r : IdentifiedRoom} {o : Except String TraceResult}
    {region : RoomRegion} (h : mkRoomV4 i r o = some region) :
    region.id = "room-" ++ toString i := by
  unfold mkRoomV4 at h
  rcases o with e | t
  · exact absurd h (by simp)
  · simp only at h
    split at h
    · exact absurd h (by simp)
    · obtain rfl := Option.some.inj h
      rfl

theorem normalized_bbox_extent {region : RoomRegion} (h : Normalized region) :
    region.bbox.x = specMinX region.polygon ∧
    region.bbox.y = specMinY region.polygon ∧
    region.bbox.width = specMaxX region.polygon - specMinX region.polygon ∧
    region.bbox.height = specMaxY region.polygon - specMinY region.polygon := by
  obtain ⟨hlen, hin, hbbox, _, _⟩ := h
  have hne : region.polygon ≠ [] := by
    intro he
    rw [he] at hlen
    simp at hlen
  rw [hbbox, computeBbox_eq_extent _ hne hin]
  exact ⟨rfl, rfl, rfl, rfl⟩

theorem normalized_bboxInvariant {region : RoomRegion} (h : Normalized region) :
    BboxInvariant region := by
  obtain ⟨hlen, hin, hbbox, _, _⟩ := h
  have e : bboxFold region.polygon =
      ⟨region.polygon.foldl (fun a p => min a p.x) 100,
       region.polygon.foldl (fun a p => min a p.y) 100,
       region.polygon.foldl (fun a p => max a p.x) 0,
       region.polygon.foldl (fun a p => max a p.y) 0⟩ :=
    bboxFold_split region.polygon ⟨100, 100, 0, 0⟩
  have hb : region.bbox =
      ⟨region.polygon.foldl (fun a p => min a p.x) 100,
       region.polygon.foldl (fun a p => min a p.y) 100,
       region.polygon.foldl (fun a p => max a p.x) 0 -
         region.polygon.foldl (fun a p => min a p.x) 100,
       region.polygon.foldl (fun a p => max a p.y) 0 -
         region.polygon.foldl (fun a p => min a p.y) 100⟩ := by
    rw [hbbox]
    simp [computeBbox, e]
  have hx0 : 0 ≤ region.polygon.foldl (fun a p => min a p.x) 100 :=
    foldl_min_nonneg _ _ _ (by norm_num) (fun p hp => (hin p hp).1)
  have hy0 : 0 ≤ region.polygon.foldl (fun a p => min a p.y) 100 :=
    foldl_min_nonneg _ _ _ (by norm_num) (fun p hp => (hin p hp).2.2.1)
  have hx1 : region.polygon.foldl (fun a p => max a p.x) 0 ≤ 100 :=
    foldl_max_le _ _ _ (by norm_num) (fun p hp => (hin p hp).2.1)
  have hy1 : region.polygon.foldl (fun a p => max a p.y) 0 ≤ 100 :=
    foldl_max_le _ _ _ (by norm_num) (fun p hp => (hin p hp).2.2.2)
  refine ⟨hin, ?_, ?_, ?_, ?_⟩ <;> rw [hb] <;> dsimp only <;> linarith

theorem rectRegion_invariant (rg : RoomRegion) (X Y W H : ℚ)
    (hbb : rg.bbox = ⟨X, Y, W, H⟩)
    (hpoly : rg.polygon = [⟨X, Y⟩, ⟨X + W, Y⟩, ⟨X + W, Y + H⟩, ⟨X, Y + H⟩])
    (hX0 : 0 ≤ X) (hY0 : 0 ≤ Y) (hW : 1 ≤ W) (hH : 1 ≤ H)
    (hWle : X + W ≤ 100) (hHle : Y + H ≤ 100) : BboxInvariant rg := by
  refine ⟨?_, ?_, ?_, ?_, ?_⟩
  · intro p hp
    rw [hpoly] at hp
    simp only [List.mem_cons, List.mem_singleton] at hp
    rcases hp with rfl | rfl | rfl | rfl | h
    · refine ⟨?_, ?_, ?_, ?_⟩ <;> dsimp only <;> linarith
    · refine ⟨?_, ?_, ?_, ?_⟩ <;> dsimp only <;> linarith
    · refine ⟨?_, ?_, ?_, ?_⟩ <;> dsimp only <;> linarith
    · refine ⟨?_, ?_, ?_, ?_⟩ <;> dsimp only <;> linarith
    · simp at h
  · rw [hbb]; exact hX0
  · rw [hbb]; exact hY0
  · rw [hbb]; dsimp only; linarith
  · rw [hbb]; dsimp only; linarith

theorem rect_extent (X Y W H : ℚ) (hW : 0 ≤ W) (hH : 0 ≤ H) :
    specMinX [⟨X, Y⟩, ⟨X + W, Y⟩, ⟨X + W, Y + H⟩, ⟨X, Y + H⟩] = X ∧
    specMinY [⟨X, Y⟩, ⟨X + W, Y⟩, ⟨X + W, Y + H⟩, ⟨X, Y + H⟩] = Y ∧
    specMaxX [⟨X, Y⟩, ⟨X + W, Y⟩, ⟨X + W, Y + H⟩, ⟨X, Y + H⟩] = X + W ∧
    specMaxY [⟨X, Y⟩, ⟨X + W, Y⟩, ⟨X + W, Y + H⟩, ⟨X, Y + H⟩] = Y + H := by
  have hx : X ≤ X + W := le_add_of_nonneg_right hW
  have hy : Y ≤ Y + H := le_add_of_nonneg_right hH
  refine ⟨?_, ?_, ?_, ?_⟩ <;>
    simp [specMinX, specMinY, specMaxX, specMaxY, List.foldl,
      min_eq_left hx, min_eq_left hy, max_eq_right hx, max_eq_right hy,
      min_self, max_self, min_eq_left (le_refl X), max_eq_left hx, max_eq_left hy]

theorem rect_bbox_extent (rg : RoomRegion) (X Y W H : ℚ)
    (hbb : rg.bbox = ⟨X, Y, W, H⟩)
    (hpoly : rg.polygon = [⟨X, Y⟩, ⟨X + W, Y⟩, ⟨X + W, Y + H⟩, ⟨X, Y + H⟩])
    (hW : 0 ≤ W) (hH : 0 ≤ H) :
    rg.bbox.x = specMinX rg.polygon ∧
    rg.bbox.y = specMinY rg.polygon ∧
    rg.bbox.width = specMaxX rg.polygon - specMinX rg.polygon ∧
    rg.bbox.height = specMaxY rg.polygon - specMinY rg.polygon := by
  obtain ⟨e1, e2, e3, e4⟩ := rect_extent X Y W H hW hH
  rw [hbb, hpoly]
  dsimp only
  rw [e1, e2, e3, e4]
  refine ⟨rfl, rfl, by ring, by ring⟩

theorem list_get?_set_ne {α : Type} (a : α) :
    ∀ (l : List α) (i j : Nat), j ≠ i → (l.set i a).get? j = l.get? j := by
  intro l
  induction l with
  | nil => intro i j _; simp
  | cons x xs ih =>
    intro i j hne
    cases i with
    | zero =>
      cases j with
      | zero => exact absurd rfl hne
      | succ jj => simp [List.set]
    | succ ii =>
      cases j with
      | zero => simp [List.set]
      | succ jj =>
        simp only [List.set, List.get?]
        exact ih ii jj (fun hc => hne (by rw [hc]))

/-! ## Claim theorems -/

/-- C1 (amended): every detection endpoint either fails with an error
response carrying a message, or returns a — possibly empty — list in which
every record is fully normalized.  (The original claim's "non-empty or
DetectionError" is refuted by `c1_counterexample`: a batch whose every
record is dropped by validation yields a 200 response with an empty list.) -/
theorem c1_normalized_or_error :
    (∀ (vo : VisionOutcome (List RawRoom)) (rooms : List RoomRegion),
        detect2dHandler vo = .ok rooms → ∀ region ∈ rooms, Normalized region) ∧
    (∀ (vo : VisionOutcome (List RawPolyRoom)) (rooms : List RoomRegion),
        detectPolyHandler vo = .ok rooms → ∀ region ∈ rooms, Normalized region) ∧
    (∀ (s1 : VisionOutcome (List IdentifiedRoom))
        (trace : Nat → Except String TraceResult) (rooms : List RoomRegion),
        detectV4Handler s1 trace = .ok rooms → ∀ region ∈ rooms, Normalized region) := by
  refine ⟨?_, ?_, ?_⟩
  · intro vo rooms h region hm
    cases vo with
    | fail st m => exact absurd h (by simp [detect2dHandler])
    | unparseable => exact absurd h (by simp [detect2dHandler])
    | notArray => exact absurd h (by simp [detect2dHandler])
    | parsed l =>
      have : rooms = processRooms l := by
        simpa [detect2dHandler] using h.symm
      rw [this] at hm
      obtain ⟨j, r', _, hmk⟩ := processAux_mem 0 l region hm
      exact mkRoom_normalized hmk
  · intro vo rooms h region hm
    cases vo with
    | fail st m => exact absurd h (by simp [detectPolyHandler])
    | unparseable => exact absurd h (by simp [detectPolyHandler])
    | notArray => exact absurd h (by simp [detectPolyHandler])
    | parsed l =>
      have : rooms = processRoomsPoly l := by
        simpa [detectPolyHandler] using h.symm
      rw [this] at hm
      obtain ⟨j, r', _, hmk⟩ := processPolyAux_mem 0 l region hm
      exact mkRoomPoly_normalized hmk
  · intro s1 trace rooms h region hm
    cases s1 with
    | fail st m => exact absurd h (by simp [detectV4Handler])
    | unparseable => exact absurd h (by simp [detectV4Handler])
    | notArray => exact absurd h (by simp [detectV4Handler])
    | parsed l =>
      by_cases hz : l.length = 0
      · exact absurd h (by simp [detectV4Handler, hz])
      · have : rooms = processV4 l trace := by
          simpa [detectV4Handler, hz] using h.symm
        rw [this, processV4, processV4Loop_eq_batchFilter] at hm
        obtain ⟨j, r', _, hmk⟩ := batchFilter_mem trace 0 l region hm
        exact mkRoomV4_normalized hmk

/-- C1 counterexample: a parsed batch whose only record has a 1-point
polygon produces a 200 response with an *empty* rooms list — not a
`DetectionError` — refuting the claim's "zero valid rooms after filtering
fails with a DetectionError". -/
theorem c1_counterexample :
    detect2dHandler (.parsed [rawOnePoint]) = .ok [] := rfl

/-- C1 witness: the theorem applied to a concrete parsed batch. -/
theorem c1_witness : Normalized (regionOfV1 0 rawTriangle) :=
  c1_normalized_or_error.1 (.parsed [rawTriangle]) (processRooms [rawTriangle]) rfl
    (regionOfV1 0 rawTriangle) (List.mem_singleton_self _)

/-- C6: records whose normalized polygon has fewer than 3 points are
excluded from the output entirely (the conversion equals the spec-side
"keep only ≥3-point records" list, so the output length is the count of
surviving records and ≥3-point records pass through unchanged); the
conversion is a total function, so no exception propagates. -/
theorem c6_short_polygons_dropped :
    (∀ l : List RawRoom,
        processRooms l = specKeptV1 0 l ∧
        (processRooms l).length =
          l.countP (fun r => decide (3 ≤ (roomPolygonV1 r).length))) ∧
    (∀ l : List RawPolyRoom,
        processRoomsPoly l = specKeptPoly 0 l ∧
        (processRoomsPoly l).length =
          l.countP (fun r => decide (3 ≤ (roomPolygonV2 r).length))) := by
  constructor
  · intro l
    refine ⟨processAux_eq_specKept 0 l, ?_⟩
    rw [processRooms, processAux_eq_specKept, specKeptV1_length]
  · intro l
    refine ⟨processPolyAux_eq_specKept 0 l, ?_⟩
    rw [processRoomsPoly, processPolyAux_eq_specKept, specKeptPoly_length]

/-- C7 counterexample: with the first raw record dropped by validation, the
only returned region keeps id `room-1` — the ids are *not* `room-0 ..
room-(n-1)` over the filtered list. -/
theorem c7_counterexample :
    (processRooms c7ex).map (fun region => region.id) = [("room-1")] ∧
    (processRooms c7ex).length = 1 := by
  constructor <;> rfl

/-- C7 (amended): each returned region's id is `"room-" + j` where `j` is
the record's position in the *raw* (pre-filter) response array — so ids can
have gaps when records are dropped — and every region gets
`featherPx = 12` and `maskUrl = null`. -/
theorem c7_ids_from_raw_index :
    (∀ (l : List RawRoom) (region : RoomRegion), region ∈ processRooms l →
        region.featherPx = 12 ∧ region.maskUrl = none ∧
        ∃ j r', l.get? j = some r' ∧ mkRoom j r' = some region ∧
          region.id = "room-" ++ toString j) ∧
    (∀ (rl : List IdentifiedRoom) (trace : Nat → Except String TraceResult)
        (region : RoomRegion), region ∈ processV4 rl trace →
        region.featherPx = 12 ∧ region.maskUrl = none ∧
        ∃ j r', rl.get? j = some r' ∧ mkRoomV4 j r' (trace j) = some region ∧
          region.id = "room-" ++ toString j) := by
  constructor
  · intro l region hm
    obtain ⟨j, r', hg, hmk⟩ := processAux_mem 0 l region hm
    rw [Nat.zero_add] at hmk
    obtain ⟨_, _, _, hf, hmu⟩ := mkRoom_normalized hmk
    exact ⟨hf, hmu, j, r', hg, hmk, mkRoom_id hmk⟩
  · intro rl trace region hm
    rw [processV4, processV4Loop_eq_batchFilter] at hm
    obtain ⟨j, r', hg, hmk⟩ := batchFilter_mem trace 0 rl region hm
    rw [Nat.zero_add] at hmk
    obtain ⟨_, _, _, hf, hmu⟩ := mkRoomV4_normalized hmk
    exact ⟨hf, hmu, j, r', hg, hmk, mkRoomV4_id hmk⟩

/-- C7 witness: the amended theorem at the concrete two-record batch. -/
theorem c7_witness :
    (regionOfV1 1 rawTriangle).featherPx = 12 ∧
    (regionOfV1 1 rawTriangle).maskUrl = none ∧
    ∃ j r', c7ex.get? j = some r' ∧ mkRoom j r' = some (regionOfV1 1 rawTriangle) ∧
      (regionOfV1 1 rawTriangle).id = "room-" ++ toString j :=
  c7_ids_from_raw_index.1 c7ex (regionOfV1 1 rawTriangle) (List.mem_singleton_self _)

/-- C2: for every record surviving normalization — under the point-array,
SVG-path (both handled by v1's `mkRoom`), point-array-only (v2/v3, v4) and
bounding-box encodings — the returned region's bbox equals exactly the
min/max extent of its polygon. -/
theorem c2_bbox_is_extent :
    (∀ (i : Nat) (r : RawRoom) (region : RoomRegion), mkRoom i r = some region →
        region.bbox.x = specMinX region.polygon ∧
        region.bbox.y = specMinY region.polygon ∧
        region.bbox.width = specMaxX region.polygon - specMinX region.polygon ∧
        region.bbox.height = specMaxY region.polygon - specMinY region.polygon) ∧
    (∀ (i : Nat) (r : RawPolyRoom) (region : RoomRegion), mkRoomPoly i r = some region →
        region.bbox.x = specMinX region.polygon ∧
        region.bbox.y = specMinY region.polygon ∧
        region.bbox.width = specMaxX region.polygon - specMinX region.polygon ∧
        region.bbox.height = specMaxY region.polygon - specMinY region.polygon) ∧
    (∀ (i : Nat) (r : IdentifiedRoom) (o : Except String TraceResult)
        (region : RoomRegion), mkRoomV4 i r o = some region →
        region.bbox.x = specMinX region.polygon ∧
        region.bbox.y = specMinY region.polygon ∧
        region.bbox.width = specMaxX region.polygon - specMinX region.polygon ∧
        region.bbox.height = specMaxY region.polygon - specMinY region.polygon) ∧
    (∀ (i : Nat) (r : RawBoundsRoom),
        (mkBoundsRoom i r).bbox.x = specMinX (mkBoundsRoom i r).polygon ∧
        (mkBoundsRoom i r).bbox.y = specMinY (mkBoundsRoom i r).polygon ∧
        (mkBoundsRoom i r).bbox.width =
          specMaxX (mkBoundsRoom i r).polygon - specMinX (mkBoundsRoom i r).polygon ∧
        (mkBoundsRoom i r).bbox.height =
          specMaxY (mkBoundsRoom i r).polygon - specMinY (mkBoundsRoom i r).polygon) := by
  refine ⟨?_, ?_, ?_, ?_⟩
  · intro i r region h
    exact normalized_bbox_extent (mkRoom_normalized h)
  · intro i r region h
    exact normalized_bbox_extent (mkRoomPoly_normalized h)
  · intro i r o region h
    exact normalized_bbox_extent (mkRoomV4_normalized h)
  · intro i r
    exact rect_bbox_extent (mkBoundsRoom i r) _ _ _ _ rfl rfl
      (le_trans zero_le_one (le_max_left _ _)) (le_trans zero_le_one (le_max_left _ _))

/-- C2 witness: the theorem at a concrete SVG-path record. -/
theorem c2_witness :
    (regionOfV1 0 rawPathRoom).bbox.x = specMinX (regionOfV1 0 rawPathRoom).polygon ∧
    (regionOfV1 0 rawPathRoom).bbox.y = specMinY (regionOfV1 0 rawPathRoom).polygon ∧
    (regionOfV1 0 rawPathRoom).bbox.width =
      specMaxX (regionOfV1 0 rawPathRoom).polygon -
        specMinX (regionOfV1 0 rawPathRoom).polygon ∧
    (regionOfV1 0 rawPathRoom).bbox.height =
      specMaxY (regionOfV1 0 rawPathRoom).polygon -
        specMinY (regionOfV1 0 rawPathRoom).polygon :=
  c2_bbox_is_extent.1 0 rawPathRoom (regionOfV1 0 rawPathRoom) rfl

/-- C8 (amended): every region of the polygon-normalizing handlers (v1, v2,
v3, v4) has all polygon coordinates clamped into `[0,100]` (the spec's
clamping example and missing-coordinate default hold) and its derived bbox
satisfies `0 ≤ x, y` and `x + width ≤ 100`, `y + height ≤ 100`.  For the
bounding-box handler the invariant holds whenever the clamped corner stays
at most 99: its minimum-size floor `max(1, ...)` is applied *after* the
`min(100 - x, ...)` clamp, so corners beyond 99 can push `x + width` (or
`y + height`) above 100 (see `c8_counterexample`). -/
theorem c8_clamped_invariant :
    (∀ (i : Nat) (r : RawRoom) (region : RoomRegion),
        mkRoom i r = some region → BboxInvariant region) ∧
    (∀ (i : Nat) (r : RawPolyRoom) (region : RoomRegion),
        mkRoomPoly i r = some region → BboxInvariant region) ∧
    (∀ (i : Nat) (r : IdentifiedRoom) (o : Except String TraceResult)
        (region : RoomRegion),
        mkRoomV4 i r o = some region → BboxInvariant region) ∧
    (∀ (i : Nat) (r : RawBoundsRoom),
        (mkBoundsRoom i r).bbox.x ≤ 99 → (mkBoundsRoom i r).bbox.y ≤ 99 →
        BboxInvariant (mkBoundsRoom i r)) ∧
    normPoint ⟨some (-5), some 120⟩ = ⟨0, 100⟩ ∧
    normPoint ⟨none, none⟩ = ⟨0, 0⟩ := by
  refine ⟨?_, ?_, ?_, ?_, by decide, by decide⟩
  · intro i r region h
    exact normalized_bboxInvariant (mkRoom_normalized h)
  · intro i r region h
    exact normalized_bboxInvariant (mkRoomPoly_normalized h)
  · intro i r o region h
    exact normalized_bboxInvariant (mkRoomV4_normalized h)
  · intro i r hx hy
    have hX0 : 0 ≤ (mkBoundsRoom i r).bbox.x := (clamp01_bounds _).1
    have hY0 : 0 ≤ (mkBoundsRoom i r).bbox.y := (clamp01_bounds _).1
    have hx99 : clamp01 (jsOrQ (r.bounds.getD ⟨none, none, none, none⟩).x 0) ≤ 99 := hx
    have hy99 : clamp01 (jsOrQ (r.bounds.getD ⟨none, none, none, none⟩).y 0) ≤ 99 := hy
    refine rectRegion_invariant (mkBoundsRoom i r) _ _ _ _ rfl rfl
      (clamp01_bounds _).1 (clamp01_bounds _).1 (le_max_left _ _) (le_max_left _ _)
      ?_ ?_
    · have : max 1 (min (100 - clamp01 (jsOrQ (r.bounds.getD ⟨none, none, none, none⟩).x 0))
          (jsOrQ (r.bounds.getD ⟨none, none, none, none⟩).width 20)) ≤
          100 - clamp01 (jsOrQ (r.bounds.getD ⟨none, none, none, none⟩).x 0) :=
        max_le (by linarith) (min_le_left _ _)
      linarith
    · have : max 1 (min (100 - clamp01 (jsOrQ (r.bounds.getD ⟨none, none, none, none⟩).y 0))
          (jsOrQ (r.bounds.getD ⟨none, none, none, none⟩).height 20)) ≤
          100 - clamp01 (jsOrQ (r.bounds.getD ⟨none, none, none, none⟩).y 0) :=
        max_le (by linarith) (min_le_left _ _)
      linarith

/-- C8 counterexample: a bounds record at the corner
`{x: 100, y: 100, width: 50, height: 50}` yields `x + width = 101` and a
polygon coordinate of 101, violating the claimed invariant. -/
theorem c8_counterexample :
    c8bad.bbox.x + c8bad.bbox.width = 101 ∧
    c8bad.bbox.y + c8bad.bbox.height = 101 ∧
    c8bad.polygon.get? 1 = some ⟨101, 100⟩ := by
  have h1 : c8bad.bbox.x = 100 := by decide
  have h3 : c8bad.bbox.y = 100 := by decide
  have h2 : c8bad.bbox.width = 1 := by
    show max 1 (min (100 - clamp01 (jsOrQ (some 100) 0)) (jsOrQ (some 50) 20)) = 1
    norm_num [clamp01, jsOrQ, min_def, max_def]
  have h4 : c8bad.bbox.height = 1 := by
    show max 1 (min (100 - clamp01 (jsOrQ (some 100) 0)) (jsOrQ (some 50) 20)) = 1
    norm_num [clamp01, jsOrQ, min_def, max_def]
  have h5 : c8bad.polygon.get? 1 =
      some ⟨c8bad.bbox.x + c8bad.bbox.width, c8bad.bbox.y⟩ := rfl
  refine ⟨?_, ?_, ?_⟩
  · rw [h1, h2]; norm_num
  · rw [h3, h4]; norm_num
  · rw [h5, h1, h2, h3]; norm_num

/-- C8 witness: the conditional invariant at a well-behaved bounds record. -/
theorem c8_witness : BboxInvariant (mkBoundsRoom 0 c8ok) :=
  c8_clamped_invariant.2.2.2.1 0 c8ok (by decide) (by decide)

/-- C3: the inpaint submission replaces the current image state only on a
successful result, in a single `List.set` assignment at the current index
(all other entries are untouched); on any failure the gallery is left
completely intact. -/
theorem c3_atomic_image_update :
    (∀ (st : AppState) (e : String),
        (handleInpaint st (.error e)).galleryImages = st.galleryImages) ∧
    (∀ (st : AppState) (result : InpaintResult) (img : GalleryImage),
        st.selectedRoom.isSome = true →
        st.galleryImages.get? st.currentIndex = some img →
        (handleInpaint st (.ok result)).galleryImages =
          st.galleryImages.set st.currentIndex { img with data := result.fullImageUrl } ∧
        ∀ j : Nat, j ≠ st.currentIndex →
          (handleInpaint st (.ok result)).galleryImages.get? j =
            st.galleryImages.get? j) := by
  constructor
  · intro st e
    rcases h1 : st.selectedRoom with _ | room <;>
      rcases h2 : st.galleryImages.get? st.currentIndex with _ | img <;>
        rw [List.get?_eq_getElem?] at h2 <;>
          simp [handleInpaint, h1, h2]
  · intro st result img hsel hget
    obtain ⟨room, hroom⟩ := Option.isSome_iff_exists.mp hsel
    have hget' := hget
    rw [List.get?_eq_getElem?] at hget'
    have hmain : (handleInpaint st (.ok result)).galleryImages =
        st.galleryImages.set st.currentIndex { img with data := result.fullImageUrl } := by
      simp [handleInpaint, hroom, hget']
    refine ⟨hmain, ?_⟩
    intro j hj
    rw [hmain, list_get?_set_ne _ _ _ _ hj]

/-- C3 witness: the theorem at a concrete one-image state. -/
theorem c3_witness :
    (handleInpaint stEx (.ok ⟨none, ("new-image"), none⟩)).galleryImages =
      stEx.galleryImages.set stEx.currentIndex { imgEx with data := ("new-image") } ∧
    ∀ j : Nat, j ≠ stEx.currentIndex →
      (handleInpaint stEx (.ok ⟨none, ("new-image"), none⟩)).galleryImages.get? j =
        stEx.galleryImages.get? j :=
  c3_atomic_image_update.2 stEx ⟨none, ("new-image"), none⟩ imgEx rfl rfl

/-- C5 (amended): a submission whose prompt trims to the empty string is
rejected locally (no call to `onInpaint`, hence no network request); a
non-empty prompt is forwarded with the strength value passed through
*unvalidated*, and `inpaintRoom` builds the request (the network call) with
whatever strength it was given — no code path rejects an out-of-range
strength. -/
theorem c5_local_validation :
    (∀ (p : String) (s : ℚ), jsTrim p = "" → handleSubmit p s = none) ∧
    (∀ (p : String) (s : ℚ), jsTrim p ≠ "" → handleSubmit p s = some (p, s)) ∧
    (∀ (url : String) (room : RoomRegion) (p : String) (s : ℚ) (seed : Option ℚ),
        (inpaintRoom url room p s seed).strength = s ∧
        (inpaintRoom url room p s seed).prompt = p) := by
  refine ⟨?_, ?_, ?_⟩
  · intro p s h
    simp [handleSubmit, h]
  · intro p s h
    simp [handleSubmit, h]
  · intro url room p s seed
    exact ⟨rfl, rfl⟩

/-- C5 counterexample: a submission with `strength = 1.5` (outside
`[0.3, 1.0]`) and a non-empty prompt is *not* rejected: `handleSubmit`
forwards it and `inpaintRoom` issues the request with strength 1.5. -/
theorem c5_counterexample :
    handleSubmit ("modern minimalist furniture") (3 / 2) =
      some (("modern minimalist furniture"), 3 / 2) ∧
    (inpaintRoom ("img.png") roomEx ("modern minimalist furniture") (3 / 2) none).strength =
      3 / 2 ∧
    ¬((3 : ℚ) / 2 ≤ 1) := by
  refine ⟨rfl, rfl, by norm_num⟩

/-- C5 witness: the empty-prompt rejection at a concrete input. -/
theorem c5_witness : handleSubmit ("   ") (4 / 5) = none :=
  c5_local_validation.1 ("   ") (4 / 5) rfl

/-- C9: parsing the spec's example path yields exactly its 6 points in
encounter order; comma- and no-space forms parse the same way; and appending
the trailing `Z` to any path never adds a point. -/
theorem c9_svg_path_points :
    parseSvgPath ("M 15,20 L 35,20 L 35,40 L 25,40 L 25,55 L 15,55 Z") =
      [⟨15, 20⟩, ⟨35, 20⟩, ⟨35, 40⟩, ⟨25, 40⟩, ⟨25, 55⟩, ⟨15, 55⟩] ∧
    parseSvgPath ("M10,20 L30,40 L10 40") = [⟨10, 20⟩, ⟨30, 40⟩, ⟨10, 40⟩] ∧
    ∀ s : String, parseSvgPath (s ++ ("Z")) = parseSvgPath s := by
  refine ⟨by decide, by decide, parseSvgPath_append_Z⟩

/-- A string with a non-empty left part is non-empty. -/
theorem append_ne_empty_left (a b : String) (ha : a ≠ "") : a ++ b ≠ "" := by
  intro hc
  apply ha
  have hd := congrArg String.data hc
  rw [String.data_append] at hd
  rcases a with ⟨d⟩
  obtain ⟨h1, _⟩ := List.append_eq_nil.mp hd
  rw [show d = [] from h1]

/-- C4 (amended): the generation parser checks every recognized shape
(array content parts with `image_url`/`inline_data`, base64 data URI inside
string content, the `message.images` array, the message-level `image`); when
none yields a payload, `generateIsometricRender` resolves with `image =
null` — never a partial image — and the app-level caller turns the null into
a thrown generation error, so no image is ever adopted.  (The original
claim's "the operation fails with a GenerationError" at the parser level is
refuted by `c4_counterexample`.) -/
theorem c4_no_image_is_error :
    (∀ (r : GenResponse) (g : GenerationResult),
        generateFromResponse r = .ok g → jsTruthyImg g.image = false →
        appGenerationOutcome r = .error ("No image returned from AI")) ∧
    (∀ (r : GenResponse) (v : JsImageVal),
        appGenerationOutcome r = .ok v →
        jsTruthyImg (some v) = true ∧
        ∃ g, generateFromResponse r = .ok g ∧ g.image = some v) ∧
    (∀ mi da : String,
        (parseGeneration ⟨.parts [.obj none none none (some ⟨mi, da⟩)], none, none⟩).1 =
          some (.str ("data:" ++ mi ++ (";base64,") ++ da))) ∧
    (∀ u : String, u ≠ "" →
        (parseGeneration
            ⟨.parts [.obj (some ("image_url")) (some ⟨some u⟩) none none], none, none⟩).1 =
          some (.str u)) ∧
    (∀ u : String, u ≠ "" →
        (parseGeneration
            ⟨.nullc, some [.obj (some ("image_url")) (some ⟨some u⟩) none none], none⟩).1 =
          some (.str u)) ∧
    (∀ u : String, u ≠ "" →
        (parseGeneration ⟨.nullc, none, some u⟩).1 = some (.str u)) ∧
    parseStringContent ("pic: data:image/png;base64,QUJD =)") =
      (some (.str ("data:image/png;base64,QUJD")), some ("pic:  =)")) := by
  refine ⟨?_, ?_, ?_, ?_, ?_, ?_, by decide⟩
  · intro r g h hf
    simp [appGenerationOutcome, h, hf]
  · intro r v h
    rcases hr : generateFromResponse r with e | g
    · rw [appGenerationOutcome, hr] at h
      simp at h
    · rw [appGenerationOutcome, hr] at h
      by_cases ht : jsTruthyImg g.image
      · rcases hi : g.image with _ | w
        · rw [hi] at ht; simp [jsTruthyImg] at ht
        · have ht2 : jsTruthyImg (some w) = true := hi ▸ ht
          simp only [hi, ht2, if_true] at h
          obtain rfl := Except.ok.inj h
          exact ⟨ht2, g, rfl, hi⟩
      · simp only [ht, if_false] at h
        simp at h
  · intro mi da
    have hne : ("data:" ++ mi ++ (";base64,") ++ da) ≠ "" :=
      append_ne_empty_left _ _
        (append_ne_empty_left _ _ (append_ne_empty_left _ _ (by decide)))
    simp [parseGeneration, parseArrayContent, stepPart, imagePartUrl, truthyS,
      jsTruthyImg, hne]
  · intro u hu
    simp [parseGeneration, parseArrayContent, stepPart, imagePartUrl, truthyS,
      jsTruthyImg, hu]
  · intro u hu
    simp [parseGeneration, firstImagesUrl, imagePartUrl, truthyS, jsTruthyImg, hu]
  · intro u hu
    simp [parseGeneration, jsTruthyImg, hu]

/-- C4 counterexample: a response whose content is a plain description
resolves successfully with `image = null` — `generateIsometricRender` does
not fail with a `GenerationError` when no payload is found. -/
theorem c4_counterexample :
    generateFromResponse (.ok [c4msg]) =
      .ok ⟨none, some ("Here is a rendering description, sadly with no picture attached.")⟩ :=
  rfl

/-- C4 witness: the amended theorem at a concrete payload-free response. -/
theorem c4_witness :
    appGenerationOutcome (.ok [c4empty]) = .error ("No image returned from AI") :=
  c4_no_image_is_error.1 (.ok [c4empty]) ⟨none, none⟩ rfl rfl

/-- C10: `detectRoomsAllMethods` is a total function of the four per-method
outcomes — it always produces a map with exactly one entry per method
(v1–v4), each holding that method's result or error, independent of the
other methods' outcomes. -/
theorem c10_all_methods_entries :
    ∀ outcome : DetectionMethod → Except String RoomDetectionResult,
      (detectRoomsAllMethods outcome).length = 4 ∧
      (detectRoomsAllMethods outcome).map Prod.fst = DETECTION_METHODS ∧
      ∀ m : DetectionMethod,
        (detectRoomsAllMethods outcome).lookup m = some (outcome m) := by
  intro outcome
  refine ⟨rfl, rfl, ?_⟩
  intro m
  cases m <;> rfl
